import Mathlib

/-!
Verification of the Translation Relay and Caching Engine of the
`livetranslationw` repository.

The repository contains two server variants (both in the same source tree):

* variant 1: rooms are stored in a `rooms` map of `Room` objects holding a
  `users` map, sessions in `userSessions`; the `live-speech` handler emits a
  `live-translation` event (with an error marker and the original text on
  total provider failure) or a `new-message` event for same-language
  recipients;
* variant 2: rooms are stored in `activeRooms` (a map from room id to a map
  of users), sessions in `userSessions`; its `live-speech` handler skips
  same-language recipients entirely and emits nothing on provider failure.

The client-side `PerformanceOptimizer` (public/performance-optimizer.js)
holds the only translation cache of the code base: an insertion-ordered
JavaScript `Map` bounded by `maxCacheSize`.

JavaScript `Map` objects preserve insertion order, `set` on an existing key
updates the value in place without moving the entry, `delete` removes the
entry, and `map.keys().next().value` is the first (oldest inserted) key.
We model such maps as association lists in insertion order.
-/

set_option autoImplicit false

namespace LiveTranslation

universe u

/-! ## JavaScript Map model -/

namespace JsMap

variable {β : Type u}

/-- JavaScript `map.get(k)`: the value stored under `k`, if any. -/
def get (k : String) : List (String × β) → Option β
  | [] => none
  | (k', v) :: rest => if k' = k then some v else get k rest

/-- JavaScript `map.set(k, v)`: update in place if the key is present
(keeping its position in insertion order), otherwise append at the end. -/
def set (k : String) (v : β) : List (String × β) → List (String × β)
  | [] => [(k, v)]
  | (k', v') :: rest => if k' = k then (k', v) :: rest else (k', v') :: set k v rest

/-- JavaScript `map.delete(k)`: remove the entry stored under `k`. -/
def del (k : String) : List (String × β) → List (String × β)
  | [] => []
  | (k', v') :: rest => if k' = k then del k rest else (k', v') :: del k rest

/-- The keys of the map, in insertion order. -/
def keys (m : List (String × β)) : List String := m.map Prod.fst

end JsMap

/-! ## Translation cache: `PerformanceOptimizer` (public/performance-optimizer.js)

The cache state of the `PerformanceOptimizer` class: the `translationCache`
JavaScript Map and the `maxCacheSize` bound. -/

/-- The value stored in `translationCache` by `cacheTranslation`. -/
structure CacheEntry where
  originalText : String
  translatedText : String
  sourceLang : String
  targetLang : String
  timestamp : Nat
  hitCount : Nat
  lastAccessed : Option Nat
deriving DecidableEq

/-- The cache-related state of the `PerformanceOptimizer` class. -/
structure PerformanceOptimizer where
  translationCache : List (String × CacheEntry)
  maxCacheSize : Nat
deriving DecidableEq

/-- The cache key built by both `cacheTranslation` and `getCachedTranslation`:
the template literal `text + "_" + sourceLang + "_" + targetLang`. -/
def cacheKey (text sourceLang targetLang : String) : String :=
  text ++ "_" ++ sourceLang ++ "_" ++ targetLang

/-- Method `cacheTranslation(originalText, translatedText, sourceLang, targetLang)`.
If the cache has reached `maxCacheSize` the first inserted key is deleted
(on an empty map `keys().next().value` is `undefined` and the delete is a
no-op), then the entry is stored under its key.  There is no restriction on
the stored text: the method caches whatever it is given. -/
def cacheTranslation (po : PerformanceOptimizer)
    (originalText translatedText sourceLang targetLang : String) (now : Nat) :
    PerformanceOptimizer :=
  let key := cacheKey originalText sourceLang targetLang
  let cache :=
    if po.maxCacheSize ≤ po.translationCache.length then
      match po.translationCache.head? with
      | some (oldestKey, _) => JsMap.del oldestKey po.translationCache
      | none => po.translationCache
    else po.translationCache
  { po with
      translationCache :=
        JsMap.set key
          { originalText := originalText
            translatedText := translatedText
            sourceLang := sourceLang
            targetLang := targetLang
            timestamp := now
            hitCount := 0
            lastAccessed := none }
          cache }

/-- Method `getCachedTranslation(text, sourceLang, targetLang)`: on a hit the
entry object is mutated (`hitCount` incremented, `lastAccessed` set) and
returned; on a miss `null` is returned and the cache is untouched. -/
def getCachedTranslation (po : PerformanceOptimizer)
    (text sourceLang targetLang : String) (now : Nat) :
    Option CacheEntry × PerformanceOptimizer :=
  let key := cacheKey text sourceLang targetLang
  match JsMap.get key po.translationCache with
  | some cached =>
      let updated := { cached with hitCount := cached.hitCount + 1, lastAccessed := some now }
      (some updated, { po with translationCache := JsMap.set key updated po.translationCache })
  | none => (none, po)

/-- One call to `cacheTranslation`, for describing sequences of stores. -/
structure StoreCall where
  originalText : String
  translatedText : String
  sourceLang : String
  targetLang : String
  time : Nat
deriving DecidableEq

/-- Run a sequence of `cacheTranslation` calls. -/
def runStores (po : PerformanceOptimizer) (ops : List StoreCall) : PerformanceOptimizer :=
  ops.foldl
    (fun p c => cacheTranslation p c.originalText c.translatedText c.sourceLang c.targetLang c.time)
    po

/-! ## Provider chain: `translateWithFreeServices`

Both server variants contain the identical fallback loop over the three
translation services.  Each attempt either throws (modelled as
`Except.error ()`) or resolves with a string; the loop returns the resolved
string only when it is truthy (`if (result) return result`), so an empty
string falls through to the next service exactly like a thrown error.
After the loop the chain throws `All translation services failed`, carrying
nothing. -/

/-- Function `translateWithFreeServices`, applied to the list of the
outcomes that its configured services would produce for this call, in
priority order. -/
def translateWithFreeServices : List (Except Unit String) → Except Unit String
  | [] => .error ()
  | outcome :: rest =>
    match outcome with
    | .ok result => if result = "" then translateWithFreeServices rest else .ok result
    | .error _ => translateWithFreeServices rest

/-- The first truthy (non-empty) success among the provider outcomes, in
priority order. -/
def firstTruthySuccess : List (Except Unit String) → Option String
  | [] => none
  | outcome :: rest =>
    match outcome with
    | .ok r => if r = "" then firstTruthySuccess rest else some r
    | .error _ => firstTruthySuccess rest

/-! ## Server variant 1

State of the first server file: the `rooms` map (room id to a `Room`
object holding a `users` map of `{userName, userLanguage, joinedAt}`) and
the `userSessions` map (socket id to `{roomId, userName, userLanguage}`). -/

/-- The per-user value stored in `room.users`. -/
structure UserInfo where
  userName : String
  userLanguage : String
  joinedAt : Nat
deriving DecidableEq

/-- The value stored in the `rooms` map. -/
structure Room where
  id : String
  users : List (String × UserInfo)
  createdAt : Nat
deriving DecidableEq

/-- The value stored in `userSessions`. -/
structure Session where
  roomId : String
  userName : String
  userLanguage : String
deriving DecidableEq

/-- The mutable state of server variant 1. -/
structure ServerState where
  rooms : List (String × Room)
  userSessions : List (String × Session)
deriving DecidableEq

/-- The outbound socket events of server variant 1. -/
inductive OutEvent where
  | roomJoined (roomId : String) (users : List (String × String × String))
  | userJoined (userName userLanguage userId : String)
  | userLeft (userName userId : String)
  | liveTranslation (originalText translatedText speakerName sourceLanguage
      targetLanguage : String) (error : Option String)
  | newMessage (originalText speakerName : String)
deriving DecidableEq

/-- A delivered event: the socket id of the recipient together with the
event.  A `socket.to(room).emit` is expanded into one delivery per room
member other than the sender; an `io.to(userId).emit` targets one user. -/
abbrev Emission := String × OutEvent

/-- Handler `socket.on('join-room')` of server variant 1.  It first removes
the connection from its previous room, if any (emitting `user-left` to the
remaining members and deleting the room when it becomes empty), then joins
the requested room, creating it when absent, stores the new session, sends
`room-joined` to the joining connection and `user-joined` to the other
members.  Note that the previous room is left even when it is the same room
that is being joined. -/
def joinRoom (st : ServerState) (socketId roomId userName userLanguage : String)
    (now : Nat) : ServerState × List Emission :=
  let leftResult : List (String × Room) × List Emission :=
    match JsMap.get socketId st.userSessions with
    | none => (st.rooms, ([] : List Emission))
    | some prevSession =>
      match JsMap.get prevSession.roomId st.rooms with
      | none => (st.rooms, [])
      | some prevRoom =>
        let remaining := JsMap.del socketId prevRoom.users
        let evs : List Emission :=
          remaining.map fun u => (u.1, OutEvent.userLeft prevSession.userName socketId)
        if remaining.length = 0 then
          (JsMap.del prevSession.roomId st.rooms, evs)
        else
          (JsMap.set prevSession.roomId { prevRoom with users := remaining } st.rooms, evs)
  let rooms1 := leftResult.1
  let rooms2 :=
    match JsMap.get roomId rooms1 with
    | none => JsMap.set roomId { id := roomId, users := [], createdAt := now } rooms1
    | some _ => rooms1
  let room := (JsMap.get roomId rooms2).getD { id := roomId, users := [], createdAt := now }
  let userInfo : UserInfo := { userName := userName, userLanguage := userLanguage, joinedAt := now }
  let room' := { room with users := JsMap.set socketId userInfo room.users }
  let rooms3 := JsMap.set roomId room' rooms2
  let sessions' :=
    JsMap.set socketId
      ({ roomId := roomId, userName := userName, userLanguage := userLanguage } : Session)
      st.userSessions
  let selfEv : Emission :=
    (socketId, OutEvent.roomJoined roomId
      (room'.users.map fun u => (u.1, u.2.userName, u.2.userLanguage)))
  let otherEvs : List Emission :=
    (JsMap.del socketId room'.users).map fun u =>
      (u.1, OutEvent.userJoined userName userLanguage socketId)
  (⟨rooms3, sessions'⟩, leftResult.2 ++ [selfEv] ++ otherEvs)

/-- One iteration of the variant-1 `live-speech` loop for one recipient
(already known not to be the sender): a translated `live-translation`, a
degraded `live-translation` carrying the original text and the error marker
when the whole chain failed, or a `new-message` for a same-language
recipient. -/
def liveSpeechEmit (session : Session) (text sourceLanguage : String)
    (chain : String → String → String → Except Unit String)
    (u : String × UserInfo) : Emission :=
  if u.2.userLanguage ≠ sourceLanguage then
    match chain text sourceLanguage u.2.userLanguage with
    | .ok translatedText =>
        (u.1, OutEvent.liveTranslation text translatedText session.userName
          sourceLanguage u.2.userLanguage none)
    | .error _ =>
        (u.1, OutEvent.liveTranslation text text session.userName
          sourceLanguage u.2.userLanguage (some "Translation failed"))
  else
    (u.1, OutEvent.newMessage text session.userName)

/-- Handler `socket.on('live-speech')` of server variant 1, parameterised by
the overall outcome of `translateWithFreeServices` for each
`(text, sourceLang, targetLang)` triple.  Returns the list of deliveries and
the list of provider-chain invocations `(recipientId, text, source, target)`
that the handler performs.  The handler reads but never writes the server
state, and it consults no cache: `translateWithFreeServices` is invoked
afresh for every differing-language recipient of every utterance. -/
def liveSpeech (st : ServerState) (socketId text sourceLanguage : String)
    (chain : String → String → String → Except Unit String) :
    List Emission × List (String × String × String × String) :=
  match JsMap.get socketId st.userSessions with
  | none => ([], [])
  | some session =>
    match JsMap.get session.roomId st.rooms with
    | none => ([], [])
    | some room =>
      let others := room.users.filter fun u => u.1 ≠ socketId
      let emissions := others.map (liveSpeechEmit session text sourceLanguage chain)
      let calls := (others.filter fun u => u.2.userLanguage ≠ sourceLanguage).map
        fun u => (u.1, text, sourceLanguage, u.2.userLanguage)
      (emissions, calls)

/-- Handler `socket.on('disconnect')` of server variant 1: remove the user
from their room (emitting `user-left` to the remaining members), delete the
room when it becomes empty, and delete the session. -/
def disconnect (st : ServerState) (socketId : String) : ServerState × List Emission :=
  match JsMap.get socketId st.userSessions with
  | none => (st, [])
  | some session =>
    let roomResult : List (String × Room) × List Emission :=
      match JsMap.get session.roomId st.rooms with
      | none => (st.rooms, ([] : List Emission))
      | some room =>
        let remaining := JsMap.del socketId room.users
        let evs : List Emission :=
          remaining.map fun u => (u.1, OutEvent.userLeft session.userName socketId)
        if remaining.length = 0 then
          (JsMap.del session.roomId st.rooms, evs)
        else
          (JsMap.set session.roomId { room with users := remaining } st.rooms, evs)
    (⟨roomResult.1, JsMap.del socketId st.userSessions⟩, roomResult.2)

/-- Route `GET /api/room/:roomId` of server variant 1: `none` models the
404 `Room not found` response, otherwise the user count and member list are
returned. -/
def roomInfo (st : ServerState) (roomId : String) :
    Option (Nat × List (String × String × String)) :=
  (JsMap.get roomId st.rooms).map fun room =>
    (room.users.length, room.users.map fun u => (u.1, u.2.userName, u.2.userLanguage))

/-- Route `POST /api/room` of server variant 1: inserts a fresh room with an
empty `users` map into the registry.  The room id is a fragment of a v4
UUID; it is a parameter here. -/
def createRoomApi (st : ServerState) (roomId : String) (now : Nat) : ServerState :=
  { st with rooms := JsMap.set roomId { id := roomId, users := [], createdAt := now } st.rooms }

/-- Relay several utterances through the variant-1 `live-speech` handler and
collect every provider-chain invocation.  The handler does not modify any
server state (and holds no cache), so the same state is read each time. -/
def relayRunCalls (st : ServerState)
    (utterances : List (String × String × String))
    (chain : String → String → String → Except Unit String) :
    List (String × String × String × String) :=
  utterances.flatMap fun u => (liveSpeech st u.1 u.2.1 u.2.2 chain).2

/-! ## Server variant 2

State of the second server file: `activeRooms` maps a room id directly to a
map from socket id to user info, and `userSessions` additionally stores
`joinedAt`. -/

/-- The value stored in `userSessions` of variant 2. -/
structure Session2 where
  roomId : String
  userName : String
  userLanguage : String
  joinedAt : Nat
deriving DecidableEq

/-- The mutable state of server variant 2. -/
structure ServerState2 where
  activeRooms : List (String × List (String × UserInfo))
  userSessions : List (String × Session2)
deriving DecidableEq

/-- The `live-translation` event of server variant 2 (it carries a speaker
id and the interim flag, and has no error form: on provider failure the
handler only logs). -/
inductive OutEvent2 where
  | liveTranslation2 (originalText translatedText sourceLanguage targetLanguage
      speakerName speakerId : String) (isInterim : Bool)
deriving DecidableEq

/-- Helper `getRoomUsers` of variant 2: the member map of a room, or an
empty map when the room is unknown. -/
def getRoomUsers (st : ServerState2) (roomId : String) : List (String × UserInfo) :=
  (JsMap.get roomId st.activeRooms).getD []

/-- One iteration of the variant-2 `live-speech` loop for one room member:
the sender and same-language members are skipped with `continue`, a
provider-chain failure is only logged, and only a successful translation
produces a delivery. -/
def liveSpeech2Emit (userSession : Session2) (socketId text : String) (isInterim : Bool)
    (chain : String → String → String → Except Unit String)
    (u : String × UserInfo) : List (String × OutEvent2) :=
  if u.1 = socketId then []
  else if u.2.userLanguage = userSession.userLanguage then []
  else
    match chain text userSession.userLanguage u.2.userLanguage with
    | .ok translation =>
        [(u.1, OutEvent2.liveTranslation2 text translation userSession.userLanguage
          u.2.userLanguage userSession.userName socketId isInterim)]
    | .error _ => []

/-- The provider-chain invocation that the same loop iteration performs, if
any. -/
def liveSpeech2Call (userSession : Session2) (socketId text : String)
    (u : String × UserInfo) : List (String × String × String × String) :=
  if u.1 = socketId then []
  else if u.2.userLanguage = userSession.userLanguage then []
  else [(u.1, text, userSession.userLanguage, u.2.userLanguage)]

/-- Handler `socket.on('live-speech')` of server variant 2.  The source
language is taken from the sender's session.  Recipients whose language
equals the source language are skipped with `continue` (no event), and on a
provider-chain failure the error is only logged (no event).  Returns the
deliveries and the provider-chain invocations. -/
def liveSpeech2 (st : ServerState2) (socketId text : String) (isInterim : Bool)
    (chain : String → String → String → Except Unit String) :
    List (String × OutEvent2) × List (String × String × String × String) :=
  match JsMap.get socketId st.userSessions with
  | none => ([], [])
  | some userSession =>
    let roomUsers := getRoomUsers st userSession.roomId
    (roomUsers.flatMap (liveSpeech2Emit userSession socketId text isInterim chain),
     roomUsers.flatMap (liveSpeech2Call userSession socketId text))

/-! ## Client-side single translation: `translateSingle`

The only code of the repository that layers the cache around a translation
call is the client-side `PerformanceOptimizer.translateSingle` (used by the
solo-mode path of the app, not by the room relay): it checks
`getCachedTranslation` first, otherwise performs one `fetch` of
`/api/translate` and, when the response object has `success`, stores the
result via `cacheTranslation` before returning it. -/

/-- The request object handed to `translateSingle`. -/
structure TranslateRequest where
  text : String
  sourceLang : String
  targetLang : String
deriving DecidableEq

/-- The fields of the `/api/translate` JSON response that `translateSingle`
consumes. -/
structure ApiResult where
  success : Bool
  translatedText : String
deriving DecidableEq

/-- The value produced by `translateSingle`: the cached object, the parsed
response, or a thrown error. -/
inductive SingleResult where
  | cachedResult (originalText translatedText : String)
  | apiResult (r : ApiResult)
  | failure
deriving DecidableEq

/-- The result of one `translateSingle` call: its value, the optimizer
state afterwards, and the number of network fetches it performed. -/
structure SingleOutcome where
  result : SingleResult
  optimizer : PerformanceOptimizer
  fetches : Nat
deriving DecidableEq

/-- Method `translateSingle(request)`, parameterised by the outcome the
single `fetch('/api/translate')` would have (`Except.error ()` models a
thrown network error). -/
def translateSingle (po : PerformanceOptimizer) (req : TranslateRequest)
    (fetchOutcome : Except Unit ApiResult) (now : Nat) : SingleOutcome :=
  match getCachedTranslation po req.text req.sourceLang req.targetLang now with
  | (some cached, po1) =>
      { result := .cachedResult cached.originalText cached.translatedText
        optimizer := po1
        fetches := 0 }
  | (none, po1) =>
      match fetchOutcome with
      | .error _ => { result := .failure, optimizer := po1, fetches := 1 }
      | .ok result =>
          if result.success then
            { result := .apiResult result
              optimizer :=
                cacheTranslation po1 req.text result.translatedText req.sourceLang req.targetLang now
              fetches := 1 }
          else
            { result := .apiResult result, optimizer := po1, fetches := 1 }

/-! ## Observation helpers and concrete scenario states -/

/-- The deliveries (or recorded provider invocations) addressed to one
socket id. -/
def sentTo {γ : Type u} (evs : List (String × γ)) (uid : String) : List (String × γ) :=
  evs.filter fun e => e.1 = uid

/-- A provider chain whose services always succeed with `Hola`. -/
def chainHola : String → String → String → Except Unit String :=
  fun _ _ _ => Except.ok "Hola"

/-- A provider chain that always fails (every service down or timed out). -/
def chainFail : String → String → String → Except Unit String :=
  fun _ _ _ => Except.error ()

/-- Variant-1 server state: room `R1` with Alice (English) and Bob
(Spanish). -/
def stHello : ServerState :=
  { rooms :=
      [("R1",
        { id := "R1"
          users := [("alice", { userName := "Alice", userLanguage := "en", joinedAt := 0 }),
                    ("bob", { userName := "Bob", userLanguage := "es", joinedAt := 0 })]
          createdAt := 0 })]
    userSessions :=
      [("alice", { roomId := "R1", userName := "Alice", userLanguage := "en" }),
       ("bob", { roomId := "R1", userName := "Bob", userLanguage := "es" })] }

/-- Variant-1 server state: room `R1` whose only member is Alice, created
at time 5. -/
def stSolo : ServerState :=
  { rooms :=
      [("R1",
        { id := "R1"
          users := [("alice", { userName := "Alice", userLanguage := "en", joinedAt := 5 })]
          createdAt := 5 })]
    userSessions := [("alice", { roomId := "R1", userName := "Alice", userLanguage := "en" })] }

/-- The empty variant-1 server state. -/
def emptyServer : ServerState := { rooms := [], userSessions := [] }

/-- The original text carried by a variant-2 `live-translation` event. -/
def originalTextOf2 : OutEvent2 → String
  | .liveTranslation2 ot _ _ _ _ _ _ => ot

/-- Variant-1 server state: room `R1` with Alice (English), Bob (Spanish)
and Carol (English). -/
def stCarol : ServerState :=
  { rooms :=
      [("R1",
        { id := "R1"
          users := [("alice", { userName := "Alice", userLanguage := "en", joinedAt := 0 }),
                    ("bob", { userName := "Bob", userLanguage := "es", joinedAt := 0 }),
                    ("carol", { userName := "Carol", userLanguage := "en", joinedAt := 1 })]
          createdAt := 0 })]
    userSessions :=
      [("alice", { roomId := "R1", userName := "Alice", userLanguage := "en" }),
       ("bob", { roomId := "R1", userName := "Bob", userLanguage := "es" }),
       ("carol", { roomId := "R1", userName := "Carol", userLanguage := "en" })] }

/-- Variant-2 server state: room `R1` with Alice (English) and Bob
(Spanish). -/
def st2AliceBob : ServerState2 :=
  { activeRooms :=
      [("R1", [("alice", { userName := "Alice", userLanguage := "en", joinedAt := 0 }),
               ("bob", { userName := "Bob", userLanguage := "es", joinedAt := 0 })])]
    userSessions :=
      [("alice", { roomId := "R1", userName := "Alice", userLanguage := "en", joinedAt := 0 }),
       ("bob", { roomId := "R1", userName := "Bob", userLanguage := "es", joinedAt := 0 })] }

/-- Variant-2 server state: room `R1` with Alice and Bob both speaking
English. -/
def st2SameLang : ServerState2 :=
  { activeRooms :=
      [("R1", [("alice", { userName := "Alice", userLanguage := "en", joinedAt := 0 }),
               ("bob", { userName := "Bob", userLanguage := "en", joinedAt := 0 })])]
    userSessions :=
      [("alice", { roomId := "R1", userName := "Alice", userLanguage := "en", joinedAt := 0 }),
       ("bob", { roomId := "R1", userName := "Bob", userLanguage := "en", joinedAt := 0 })] }

/-- An empty optimizer with capacity 2, and four stores of distinct keys:
exercises the eviction bound. -/
def poCap2 : PerformanceOptimizer := { translationCache := [], maxCacheSize := 2 }

/-- Four `cacheTranslation` calls with pairwise distinct keys. -/
def fourStores : List StoreCall :=
  [{ originalText := "a", translatedText := "1", sourceLang := "en", targetLang := "es", time := 0 },
   { originalText := "b", translatedText := "2", sourceLang := "en", targetLang := "es", time := 1 },
   { originalText := "c", translatedText := "3", sourceLang := "en", targetLang := "es", time := 2 },
   { originalText := "d", translatedText := "4", sourceLang := "en", targetLang := "es", time := 3 }]

/-- A full (capacity 2) cache holding the keys of `a` and `b`. -/
def poFull2 : PerformanceOptimizer :=
  { translationCache :=
      [("a_en_es", { originalText := "a", translatedText := "1", sourceLang := "en",
                     targetLang := "es", timestamp := 0, hitCount := 0, lastAccessed := none }),
       ("b_en_es", { originalText := "b", translatedText := "2", sourceLang := "en",
                     targetLang := "es", timestamp := 1, hitCount := 0, lastAccessed := none })]
    maxCacheSize := 2 }

/-! ## Lemmas about the JavaScript Map model -/

namespace JsMap

variable {β : Type u}

@[simp] theorem get_nil (k : String) : get k ([] : List (String × β)) = none := rfl

theorem get_set_self (k : String) (v : β) (m : List (String × β)) :
    get k (set k v m) = some v := by
  induction m with
  | nil => simp [get, set]
  | cons hd tl ih =>
    obtain ⟨k', v'⟩ := hd
    by_cases h : k' = k <;> simp [get, set, h, ih]

theorem get_set_ne (k k' : String) (v : β) (m : List (String × β)) (h : k' ≠ k) :
    get k' (set k v m) = get k' m := by
  induction m with
  | nil => simp [get, set, Ne.symm h]
  | cons hd tl ih =>
    obtain ⟨k0, v0⟩ := hd
    by_cases h0 : k0 = k
    · subst h0
      simp [get, set, Ne.symm h]
    · simp [get, set, h0, ih]

theorem get_del_self (k : String) (m : List (String × β)) :
    get k (del k m) = none := by
  induction m with
  | nil => simp [del]
  | cons hd tl ih =>
    obtain ⟨k0, v0⟩ := hd
    by_cases h0 : k0 = k <;> simp [get, del, h0, ih]

theorem get_del_ne (k k' : String) (m : List (String × β)) (h : k' ≠ k) :
    get k' (del k m) = get k' m := by
  induction m with
  | nil => simp [del]
  | cons hd tl ih =>
    obtain ⟨k0, v0⟩ := hd
    by_cases h0 : k0 = k
    · subst h0
      simp [get, del, Ne.symm h, ih]
    · simp [get, del, h0, ih]

theorem get_eq_none_of_not_mem_keys {k : String} {m : List (String × β)}
    (h : k ∉ keys m) : get k m = none := by
  induction m with
  | nil => rfl
  | cons hd tl ih =>
    obtain ⟨k0, v0⟩ := hd
    simp only [keys, List.map_cons, List.mem_cons, not_or] at h
    have h0 : k0 ≠ k := Ne.symm h.1
    simp [get, h0, ih (by simpa [keys] using h.2)]

theorem mem_keys_of_get_isSome {k : String} {m : List (String × β)}
    (h : (get k m).isSome) : k ∈ keys m := by
  by_contra hmem
  rw [get_eq_none_of_not_mem_keys hmem] at h
  simp at h

theorem length_set_le (k : String) (v : β) (m : List (String × β)) :
    (set k v m).length ≤ m.length + 1 := by
  induction m with
  | nil => simp [set]
  | cons hd tl ih =>
    obtain ⟨k0, v0⟩ := hd
    by_cases h0 : k0 = k
    · simp [set, h0]
    · simp only [set, if_neg h0, List.length_cons]
      omega

theorem length_set_of_mem (k : String) (v : β) (m : List (String × β))
    (h : k ∈ keys m) : (set k v m).length = m.length := by
  induction m with
  | nil => simp [keys] at h
  | cons hd tl ih =>
    obtain ⟨k0, v0⟩ := hd
    by_cases h0 : k0 = k
    · simp [set, h0]
    · simp only [keys, List.map_cons, List.mem_cons] at h
      rcases h with h | h

      · exact absurd h.symm h0
      · simp [set, h0, ih (by simpa [keys] using h)]

theorem length_set_of_not_mem (k : String) (v : β) (m : List (String × β))
    (h : k ∉ keys m) : (set k v m).length = m.length + 1 := by
  induction m with
  | nil => simp [set]
  | cons hd tl ih =>
    obtain ⟨k0, v0⟩ := hd
    simp only [keys, List.map_cons, List.mem_cons, not_or] at h
    have h0 : k0 ≠ k := Ne.symm h.1
    simp [set, h0, ih (by simpa [keys] using h.2)]

theorem length_del_le (k : String) (m : List (String × β)) :
    (del k m).length ≤ m.length := by
  induction m with
  | nil => simp [del]
  | cons hd tl ih =>
    obtain ⟨k0, v0⟩ := hd
    by_cases h0 : k0 = k
    · simp only [del, if_pos h0, List.length_cons]
      omega
    · simp only [del, if_neg h0, List.length_cons]
      omega

theorem length_del_lt (k : String) (m : List (String × β))
    (h : k ∈ keys m) : (del k m).length < m.length := by
  induction m with
  | nil => simp [keys] at h
  | cons hd tl ih =>
    obtain ⟨k0, v0⟩ := hd
    by_cases h0 : k0 = k
    · simpa [del, h0] using Nat.lt_succ_of_le (length_del_le k tl)
    · simp only [keys, List.map_cons, List.mem_cons] at h
      rcases h with h | h
      · exact absurd h.symm h0
      · simpa [del, h0] using Nat.succ_lt_succ (ih (by simpa [keys] using h))

theorem del_eq_of_not_mem (k : String) (m : List (String × β))
    (h : k ∉ keys m) : del k m = m := by
  induction m with
  | nil => rfl
  | cons hd tl ih =>
    obtain ⟨k0, v0⟩ := hd
    simp only [keys, List.map_cons, List.mem_cons, not_or] at h
    have h0 : k0 ≠ k := Ne.symm h.1
    simp [del, h0, ih (by simpa [keys] using h.2)]

theorem mem_del_of_mem {a : String × β} {k : String} {m : List (String × β)}
    (ha : a ∈ m) (hk : a.1 ≠ k) : a ∈ del k m := by
  induction m with
  | nil => simp at ha
  | cons hd tl ih =>
    obtain ⟨k0, v0⟩ := hd
    rcases List.mem_cons.mp ha with h | h
    · subst h
      simp [del, hk]
    · by_cases h0 : k0 = k <;> simp [del, h0, ih h]

end JsMap

/-! ## Lemmas about keyed lists (room member maps and delivery lists) -/

section KeyedLists

variable {β γ : Type u}

theorem filter_key_eq_nil_of_forall_ne (l : List (String × γ)) (c : String)
    (h : ∀ e ∈ l, e.1 ≠ c) : l.filter (fun e => e.1 = c) = [] := by
  induction l with
  | nil => rfl
  | cons hd tl ih =>
    have hh := h hd (List.mem_cons_self hd tl)
    simp only [List.filter_cons]
    simp [hh, ih fun e he => h e (List.mem_cons_of_mem hd he)]

theorem filter_key_eq_nil_of_not_mem (m : String) (l : List (String × β))
    (h : m ∉ l.map Prod.fst) : l.filter (fun u => u.1 = m) = [] := by
  refine filter_key_eq_nil_of_forall_ne l m fun e he hem => h ?_
  exact hem ▸ List.mem_map_of_mem Prod.fst he

theorem filter_key_eq_of_nodup (m : String) (info : β) (l : List (String × β))
    (hnd : (l.map Prod.fst).Nodup) (hmem : (m, info) ∈ l) :
    l.filter (fun u => u.1 = m) = [(m, info)] := by
  induction l with
  | nil => simp at hmem
  | cons hd tl ih =>
    obtain ⟨k0, v0⟩ := hd
    simp only [List.map_cons, List.nodup_cons] at hnd
    rcases List.mem_cons.mp hmem with h | h
    · injection h with hk hv
      subst hk
      subst hv
      simp only [List.filter_cons]
      simp [filter_key_eq_nil_of_not_mem m tl hnd.1]
    · have hk0 : k0 ≠ m := by
        intro hh
        subst hh
        exact hnd.1 (List.mem_map_of_mem Prod.fst h)
      simp only [List.filter_cons]
      simp [hk0, ih hnd.2 h]

theorem mem_value_unique_of_nodup_keys (l : List (String × β)) (m : String) (a b : β)
    (hnd : (l.map Prod.fst).Nodup) (ha : (m, a) ∈ l) (hb : (m, b) ∈ l) : a = b := by
  induction l with
  | nil => simp at ha
  | cons hd tl ih =>
    obtain ⟨k0, v0⟩ := hd
    simp only [List.map_cons, List.nodup_cons] at hnd
    rcases List.mem_cons.mp ha with h1 | h1 <;> rcases List.mem_cons.mp hb with h2 | h2
    · injection h1 with hk1 hv1
      injection h2 with hk2 hv2
      rw [hv1, hv2]
    · injection h1 with hk1 hv1
      subst hk1
      exact absurd (List.mem_map_of_mem Prod.fst h2) hnd.1
    · injection h2 with hk2 hv2
      subst hk2
      exact absurd (List.mem_map_of_mem Prod.fst h1) hnd.1
    · exact ih hnd.2 h1 h2

theorem filter_key_map (f : (String × β) → (String × γ)) (hf : ∀ u, (f u).1 = u.1)
    (l : List (String × β)) (m : String) :
    (l.map f).filter (fun e => e.1 = m) = (l.filter fun u => u.1 = m).map f := by
  induction l with
  | nil => rfl
  | cons hd tl ih =>
    by_cases hm : hd.1 = m
    · simp only [List.map_cons, List.filter_cons, hf hd, hm]
      simp [ih]
    · simp only [List.map_cons, List.filter_cons, hf hd]
      simp [hm, ih]

theorem nodup_keys_filter (p : String × β → Bool) (l : List (String × β))
    (hnd : (l.map Prod.fst).Nodup) : ((l.filter p).map Prod.fst).Nodup :=
  List.Nodup.sublist (List.Sublist.map Prod.fst (List.filter_sublist l)) hnd

theorem mem_others_filter (users : List (String × β)) (c m : String) (info : β)
    (hmem : (m, info) ∈ users) (hne : m ≠ c) :
    (m, info) ∈ users.filter (fun u => u.1 ≠ c) :=
  List.mem_filter.mpr ⟨hmem, by simp [hne]⟩

theorem filter_others_key_eq (users : List (String × β)) (c m : String) (info : β)
    (hnd : (users.map Prod.fst).Nodup) (hmem : (m, info) ∈ users) (hne : m ≠ c) :
    (users.filter fun u => u.1 ≠ c).filter (fun u => u.1 = m) = [(m, info)] :=
  filter_key_eq_of_nodup m info _
    (nodup_keys_filter _ users hnd)
    (mem_others_filter users c m info hmem hne)

theorem filter_flatMap_key_eq_nil (l : List (String × β))
    (g : (String × β) → List (String × γ)) (m : String)
    (hkey : ∀ u e, e ∈ g u → e.1 = u.1)
    (hm : ∀ u ∈ l, u.1 = m → g u = []) :
    (l.flatMap g).filter (fun e => e.1 = m) = [] := by
  refine filter_key_eq_nil_of_forall_ne _ m fun e he hem => ?_
  obtain ⟨u, hu, heg⟩ := List.mem_flatMap.mp he
  have hkey' := hkey u e heg
  have hgu : g u = [] := hm u hu (by rw [← hkey', hem])
  rw [hgu] at heg
  simp at heg

end KeyedLists

/-! ## Lemmas about the translation cache -/

theorem set_after_evict_length_le (mx : Nat) (k : String) (v : CacheEntry)
    (m : List (String × CacheEntry)) (h1 : 1 ≤ mx) (h2 : m.length ≤ mx) :
    (JsMap.set k v
      (if mx ≤ m.length then
        match m.head? with
        | some (k0, _) => JsMap.del k0 m
        | none => m
      else m)).length ≤ mx := by
  cases m with
  | nil =>
    simp only [List.length_nil]
    rw [if_neg (by omega : ¬ mx ≤ 0)]
    simp only [JsMap.set, List.length_cons, List.length_nil]
    omega
  | cons hd t =>
    obtain ⟨k0, e0⟩ := hd
    by_cases hcap : mx ≤ ((k0, e0) :: t).length
    · simp only [if_pos hcap, List.head?_cons]
      have hdel : (JsMap.del k0 ((k0, e0) :: t)).length < ((k0, e0) :: t).length :=
        JsMap.length_del_lt k0 _ (by simp [JsMap.keys])
      have hset := JsMap.length_set_le k v (JsMap.del k0 ((k0, e0) :: t))
      omega
    · simp only [if_neg hcap]
      have hset := JsMap.length_set_le k v ((k0, e0) :: t)
      omega

theorem cacheTranslation_translationCache (po : PerformanceOptimizer)
    (ot tt sl tl : String) (now : Nat) :
    (cacheTranslation po ot tt sl tl now).translationCache =
      JsMap.set (cacheKey ot sl tl)
        { originalText := ot, translatedText := tt, sourceLang := sl, targetLang := tl,
          timestamp := now, hitCount := 0, lastAccessed := none }
        (if po.maxCacheSize ≤ po.translationCache.length then
          match po.translationCache.head? with
          | some (oldestKey, _) => JsMap.del oldestKey po.translationCache
          | none => po.translationCache
        else po.translationCache) := rfl

theorem cacheTranslation_length_le (po : PerformanceOptimizer)
    (ot tt sl tl : String) (now : Nat)
    (h1 : 1 ≤ po.maxCacheSize) (h2 : po.translationCache.length ≤ po.maxCacheSize) :
    (cacheTranslation po ot tt sl tl now).translationCache.length ≤ po.maxCacheSize :=
  set_after_evict_length_le po.maxCacheSize (cacheKey ot sl tl) _ po.translationCache h1 h2

theorem runStores_length_le (po : PerformanceOptimizer) (ops : List StoreCall)
    (h1 : 1 ≤ po.maxCacheSize) (h2 : po.translationCache.length ≤ po.maxCacheSize) :
    (runStores po ops).translationCache.length ≤ po.maxCacheSize := by
  induction ops generalizing po with
  | nil => exact h2
  | cons c rest ih =>
    have hstep := cacheTranslation_length_le po c.originalText c.translatedText
      c.sourceLang c.targetLang c.time h1 h2
    exact ih (cacheTranslation po c.originalText c.translatedText c.sourceLang
      c.targetLang c.time) h1 hstep

/-! ## Claims about the translation cache (C7, C8, C10) -/

/-- Claim C7: after any sequence of cache operations that inserts
`maxEntries + k` distinct keys via store, the translation cache size never
exceeds `maxEntries`; whenever an insertion happens at capacity, the
first-inserted (oldest remaining) entry is deleted before the new entry is
stored.  Stated for every start state whose size respects the bound (in
particular the empty cache) and every sequence of stores, with a positive
capacity (the code uses 100 or 50). -/
theorem cache_size_bounded_by_capacity (po : PerformanceOptimizer) (ops : List StoreCall)
    (h1 : 1 ≤ po.maxCacheSize) (h2 : po.translationCache.length ≤ po.maxCacheSize) :
    (runStores po ops).translationCache.length ≤ po.maxCacheSize ∧
    (∀ (k0 : String) (e0 : CacheEntry) (c : StoreCall),
      po.maxCacheSize ≤ po.translationCache.length →
      po.translationCache.head? = some (k0, e0) →
      (cacheTranslation po c.originalText c.translatedText c.sourceLang c.targetLang
          c.time).translationCache =
        JsMap.set (cacheKey c.originalText c.sourceLang c.targetLang)
          { originalText := c.originalText
            translatedText := c.translatedText
            sourceLang := c.sourceLang
            targetLang := c.targetLang
            timestamp := c.time
            hitCount := 0
            lastAccessed := none }
          (JsMap.del k0 po.translationCache)) := by
  refine ⟨runStores_length_le po ops h1 h2, ?_⟩
  intro k0 e0 c hcap hhead
  unfold cacheTranslation
  rw [if_pos hcap, hhead]

/-- Witness for C7: a capacity-2 cache stays within 2 entries after four
stores of distinct keys. -/
theorem cache_size_bounded_by_capacity_witness :
    (runStores poCap2 fourStores).translationCache.length ≤ 2 :=
  (cache_size_bounded_by_capacity poCap2 fourStores (by decide) (by decide)).1

/-- Counterexample to claim C8: calling the store operation
(`cacheTranslation`) with empty text is not a no-op.  Starting from an
empty cache, storing the empty string for the pair en to es inserts one
entry under the key `_en_es`. -/
theorem store_empty_text_not_noop :
    (cacheTranslation { translationCache := [], maxCacheSize := 100 } "" "Hola" "en" "es"
        0).translationCache.length = 1 ∧
    JsMap.get "_en_es"
        (cacheTranslation { translationCache := [], maxCacheSize := 100 } "" "Hola" "en" "es"
          0).translationCache =
      some { originalText := "", translatedText := "Hola", sourceLang := "en",
             targetLang := "es", timestamp := 0, hitCount := 0, lastAccessed := none } := by
  constructor
  · rfl
  · rfl

/-- Claim C8 as amended: `cacheTranslation` applies no empty-text
restriction; storing empty text inserts (or overwrites) an entry under the
key `"" + "_" + sourceLang + "_" + targetLang` exactly like any other
store. -/
theorem store_empty_text_inserts_entry (po : PerformanceOptimizer)
    (tt sl tl : String) (now : Nat) :
    JsMap.get (cacheKey "" sl tl) (cacheTranslation po "" tt sl tl now).translationCache =
      some { originalText := "", translatedText := tt, sourceLang := sl, targetLang := tl,
             timestamp := now, hitCount := 0, lastAccessed := none } := by
  unfold cacheTranslation
  exact JsMap.get_set_self (cacheKey "" sl tl) _ _

/-- Witness for C8: storing empty text for the pair fr to de over a
non-empty cache inserts the entry under `_fr_de`. -/
theorem store_empty_text_inserts_entry_witness :
    JsMap.get (cacheKey "" "fr" "de")
        (cacheTranslation poFull2 "" "Leer" "fr" "de" 4).translationCache =
      some { originalText := "", translatedText := "Leer", sourceLang := "fr",
             targetLang := "de", timestamp := 4, hitCount := 0, lastAccessed := none } :=
  store_empty_text_inserts_entry poFull2 "Leer" "fr" "de" 4

/-- Claim C10: when `cacheTranslation` is called while the cache size is at
least `maxCacheSize`, the oldest-inserted entry is evicted even when the
key being stored is already present; an overwrite at capacity therefore
evicts an unrelated entry and shrinks the cache by one. -/
theorem store_at_capacity_evicts_head_even_on_overwrite (po : PerformanceOptimizer)
    (ot tt sl tl : String) (now : Nat) (k0 : String) (e0 : CacheEntry)
    (hcap : po.maxCacheSize ≤ po.translationCache.length)
    (hhead : po.translationCache.head? = some (k0, e0))
    (hne : k0 ≠ cacheKey ot sl tl)
    (hnd : (po.translationCache.map Prod.fst).Nodup) :
    JsMap.get k0 (cacheTranslation po ot tt sl tl now).translationCache = none ∧
    ((JsMap.get (cacheKey ot sl tl) po.translationCache).isSome →
      (cacheTranslation po ot tt sl tl now).translationCache.length + 1 =
        po.translationCache.length) := by
  cases hc : po.translationCache with
  | nil => rw [hc] at hhead; simp at hhead
  | cons hd t =>
    rw [hc, List.head?_cons] at hhead
    injection hhead with hh
    subst hh
    rw [hc] at hcap hnd
    simp only [List.map_cons, List.nodup_cons] at hnd
    have hk0 : k0 ∉ JsMap.keys t := by simpa [JsMap.keys] using hnd.1
    have hdel : JsMap.del k0 ((k0, e0) :: t) = t := by
      simp only [JsMap.del, if_pos rfl]
      exact JsMap.del_eq_of_not_mem k0 t hk0
    have hcache : (cacheTranslation po ot tt sl tl now).translationCache =
        JsMap.set (cacheKey ot sl tl)
          { originalText := ot, translatedText := tt, sourceLang := sl, targetLang := tl,
            timestamp := now, hitCount := 0, lastAccessed := none } t := by
      rw [cacheTranslation_translationCache, hc, List.head?_cons, if_pos hcap]
      exact congrArg (JsMap.set (cacheKey ot sl tl) _) hdel
    constructor
    · rw [hcache, JsMap.get_set_ne (cacheKey ot sl tl) k0 _ t hne,
        JsMap.get_eq_none_of_not_mem_keys hk0]
    · intro hpresent
      have hget : (JsMap.get (cacheKey ot sl tl) t).isSome := by
        simp only [JsMap.get, if_neg hne] at hpresent
        exact hpresent
      have hmem : cacheKey ot sl tl ∈ JsMap.keys t := JsMap.mem_keys_of_get_isSome hget
      rw [hcache, JsMap.length_set_of_mem _ _ _ hmem]
      simp

/-- Witness for C10: a full capacity-2 cache, storing the already-present
key of `b` evicts the unrelated oldest key of `a` and shrinks the cache to
one entry. -/
theorem store_at_capacity_evicts_head_witness :
    JsMap.get "a_en_es"
      (cacheTranslation poFull2 "b" "9" "en" "es" 7).translationCache = none ∧
    (cacheTranslation poFull2 "b" "9" "en" "es" 7).translationCache.length + 1 =
      poFull2.translationCache.length := by
  have h := store_at_capacity_evicts_head_even_on_overwrite poFull2 "b" "9" "en" "es" 7
    "a_en_es"
    { originalText := "a", translatedText := "1", sourceLang := "en", targetLang := "es",
      timestamp := 0, hitCount := 0, lastAccessed := none }
    (by decide) (by decide) (by decide) (by decide)
  exact ⟨h.1, h.2 (by decide)⟩

/-! ## Claim about the provider chain (C5) -/

/-- Counterexample to claim C5: the chain can fail although a provider in
it succeeded.  With a single provider that resolves successfully with the
empty string, `translateWithFreeServices` still throws (the code only
returns a truthy result), so the chain does not fail "only when every
provider has failed or timed out". -/
theorem chain_fails_on_empty_string_success :
    translateWithFreeServices [Except.ok ""] = Except.error () ∧
    ¬ (∀ o ∈ [(Except.ok "" : Except Unit String)], ∃ e : Unit, o = Except.error e) := by
  refine ⟨rfl, ?_⟩
  intro h
  obtain ⟨e, he⟩ := h (Except.ok "") (List.mem_singleton_self _)
  exact Except.noConfusion he

/-- Claim C5 as amended: the chain tries the providers in their fixed
priority order and returns the first non-empty (truthy) successful result;
a provider success carrying the empty string is treated like a failure and
falls through; the chain fails exactly when no provider produced a
non-empty success, and the failure carries nothing. -/
theorem chain_returns_first_truthy_success (outs : List (Except Unit String)) :
    translateWithFreeServices outs =
      (match firstTruthySuccess outs with
        | some r => Except.ok r
        | none => Except.error ()) ∧
    (translateWithFreeServices outs = Except.error () ↔
      ∀ o ∈ outs, o = Except.error () ∨ o = Except.ok "") := by
  induction outs with
  | nil => exact ⟨rfl, by simp [translateWithFreeServices]⟩
  | cons o rest ih =>
    cases o with
    | ok r =>
      by_cases hr : r = ""
      · subst hr
        refine ⟨by simpa [translateWithFreeServices, firstTruthySuccess] using ih.1, ?_⟩
        rw [show translateWithFreeServices (Except.ok "" :: rest) =
          translateWithFreeServices rest from rfl]
        rw [ih.2]
        simp
      · refine ⟨by simp [translateWithFreeServices, firstTruthySuccess, hr], ?_⟩
        simp [translateWithFreeServices, hr]
    | error e =>
      cases e
      refine ⟨by simpa [translateWithFreeServices, firstTruthySuccess] using ih.1, ?_⟩
      simp only [translateWithFreeServices]
      rw [ih.2]
      simp

/-- Witness for C5: a chain whose first provider resolves with the empty
string and whose second throws returns the third provider's non-empty
success. -/
theorem chain_first_truthy_witness :
    translateWithFreeServices [Except.ok "", Except.error (), Except.ok "Hola"] =
      Except.ok "Hola" := by
  have h := (chain_returns_first_truthy_success
    [Except.ok "", Except.error (), Except.ok "Hola"]).1
  simpa using h

/-! ## Claim about the room lifecycle (C6) -/

/-- Counterexample to claim C6: the `POST /api/room` route of server
variant 1 inserts a room with an empty member map into the registry, so a
room can exist while having zero members, violating the
exists-iff-at-least-one-member invariant. -/
theorem createRoomApi_registers_memberless_room :
    (JsMap.get "AB12CD34" (createRoomApi emptyServer "AB12CD34" 0).rooms).isSome = true ∧
    roomInfo (createRoomApi emptyServer "AB12CD34" 0) "AB12CD34" = some (0, []) ∧
    ¬ (∀ r ∈ (createRoomApi emptyServer "AB12CD34" 0).rooms, 1 ≤ r.2.users.length) := by
  refine ⟨rfl, rfl, ?_⟩
  intro h
  have h0 := h ("AB12CD34", { id := "AB12CD34", users := [], createdAt := 0 }) (by decide)
  exact absurd h0 (by decide)

/-- Claim C6 as amended: through the socket operations the invariant holds
as claimed — when the only member of a room leaves it, be it by
disconnecting or by joining a different room, the room is synchronously
deleted (on disconnect no `user-left` notification remains to be sent),
and a subsequent room-info query reports the room as not found.  (The
`POST /api/room` route, however, registers a memberless room, see the
counterexample.) -/
theorem last_member_leave_deletes_room (st : ServerState) (c : String)
    (sess : Session) (room : Room) (info : UserInfo)
    (hsess : JsMap.get c st.userSessions = some sess)
    (hroom : JsMap.get sess.roomId st.rooms = some room)
    (honly : room.users = [(c, info)]) :
    (JsMap.get sess.roomId (disconnect st c).1.rooms = none ∧
     roomInfo (disconnect st c).1 sess.roomId = none ∧
     (disconnect st c).2 = []) ∧
    (∀ (newRoomId name lang : String) (now : Nat), newRoomId ≠ sess.roomId →
      JsMap.get sess.roomId (joinRoom st c newRoomId name lang now).1.rooms = none ∧
      roomInfo (joinRoom st c newRoomId name lang now).1 sess.roomId = none) := by
  have hrem : JsMap.del c room.users = [] := by
    rw [honly]
    simp [JsMap.del]
  constructor
  · simp only [disconnect, hsess, hroom, hrem]
    simp [roomInfo, JsMap.get_del_self]
  · intro newRoomId name lang now hnew
    have h1 : JsMap.get sess.roomId (joinRoom st c newRoomId name lang now).1.rooms =
        none := by
      simp only [joinRoom, hsess, hroom, hrem, List.length_nil, if_true]
      rw [JsMap.get_set_ne _ _ _ _ (Ne.symm hnew)]
      split
      · rw [JsMap.get_set_ne _ _ _ _ (Ne.symm hnew)]
        exact JsMap.get_del_self sess.roomId st.rooms
      · exact JsMap.get_del_self sess.roomId st.rooms
    exact ⟨h1, by simp [roomInfo, h1]⟩

/-- Witness for C6: Alice is the only member of `R1`; after her disconnect
the room is gone, and likewise after she joins the different room `R2`; in
both cases the room-info query for `R1` reports not found. -/
theorem last_member_leave_deletes_room_witness :
    JsMap.get "R1" (disconnect stSolo "alice").1.rooms = none ∧
    roomInfo (disconnect stSolo "alice").1 "R1" = none ∧
    JsMap.get "R1" (joinRoom stSolo "alice" "R2" "Alice" "en" 9).1.rooms = none ∧
    roomInfo (joinRoom stSolo "alice" "R2" "Alice" "en" 9).1 "R1" = none := by
  have h := last_member_leave_deletes_room stSolo "alice"
    { roomId := "R1", userName := "Alice", userLanguage := "en" }
    { id := "R1"
      users := [("alice", { userName := "Alice", userLanguage := "en", joinedAt := 5 })]
      createdAt := 5 }
    { userName := "Alice", userLanguage := "en", joinedAt := 5 }
    rfl rfl rfl
  have h2 := h.2 "R2" "Alice" "en" 9 (by decide)
  exact ⟨h.1.1, h.1.2.1, h2.1, h2.2⟩

/-! ## Lemmas about the relay handlers -/

theorem liveSpeechEmit_key (sess : Session) (text src : String)
    (chain : String → String → String → Except Unit String) (u : String × UserInfo) :
    (liveSpeechEmit sess text src chain u).1 = u.1 := by
  unfold liveSpeechEmit
  by_cases h : u.2.userLanguage ≠ src
  · rw [if_pos h]
    cases chain text src u.2.userLanguage <;> rfl
  · rw [if_neg h]

theorem liveSpeech2Emit_key (s : Session2) (c text : String) (i : Bool)
    (chain : String → String → String → Except Unit String) (u : String × UserInfo)
    (e : String × OutEvent2) (he : e ∈ liveSpeech2Emit s c text i chain u) : e.1 = u.1 := by
  unfold liveSpeech2Emit at he
  by_cases h1 : u.1 = c
  · rw [if_pos h1] at he
    simp at he
  · rw [if_neg h1] at he
    by_cases h2 : u.2.userLanguage = s.userLanguage
    · rw [if_pos h2] at he
      simp at he
    · rw [if_neg h2] at he
      rcases hch : chain text s.userLanguage u.2.userLanguage with e0 | tr
      · rw [hch] at he
        simp at he
      · rw [hch] at he
        simp only [List.mem_singleton] at he
        rw [he]

theorem liveSpeech2Call_key (s : Session2) (c text : String) (u : String × UserInfo)
    (e : String × String × String × String) (he : e ∈ liveSpeech2Call s c text u) :
    e.1 = u.1 := by
  unfold liveSpeech2Call at he
  by_cases h1 : u.1 = c
  · rw [if_pos h1] at he
    simp at he
  · rw [if_neg h1] at he
    by_cases h2 : u.2.userLanguage = s.userLanguage
    · rw [if_pos h2] at he
      simp at he
    · rw [if_neg h2] at he
      simp only [List.mem_singleton] at he
      rw [he]

/-! ## Claim about degraded delivery on total provider failure (C2) -/

/-- Counterexample to claim C2: in server variant 2, when the whole
provider chain fails for Bob (Spanish) on Alice's English utterance `X`,
the handler performs the chain invocation for Bob but delivers nothing to
him at all — no passthrough event, no error flag — so that relay does drop
a recipient silently on total translation failure. -/
theorem variant2_drops_recipient_on_total_failure :
    (liveSpeech2 st2AliceBob "alice" "X" false chainFail).1 = [] ∧
    (liveSpeech2 st2AliceBob "alice" "X" false chainFail).2 = [("bob", "X", "en", "es")] := by
  constructor
  · rfl
  · rfl

/-- Claim C2 as amended: in server variant 1 the relay behaves as claimed —
for every recipient for whom the provider chain fails entirely, it emits a
`live-translation` event whose translated text equals the original text,
marked with the error flag `Translation failed`; server variant 2 instead
logs the failure and delivers nothing to that recipient (see the
counterexample). -/
theorem total_failure_degrades_to_passthrough_variant1
    (st : ServerState) (c text src : String)
    (chain : String → String → String → Except Unit String)
    (sess : Session) (room : Room) (m : String) (info : UserInfo)
    (hsess : JsMap.get c st.userSessions = some sess)
    (hroom : JsMap.get sess.roomId st.rooms = some room)
    (hmem : (m, info) ∈ room.users) (hne : m ≠ c)
    (hlang : info.userLanguage ≠ src)
    (hchain : chain text src info.userLanguage = Except.error ()) :
    (m, OutEvent.liveTranslation text text sess.userName src info.userLanguage
      (some "Translation failed")) ∈ (liveSpeech st c text src chain).1 := by
  simp only [liveSpeech, hsess, hroom]
  refine List.mem_map.mpr ⟨(m, info), mem_others_filter room.users c m info hmem hne, ?_⟩
  simp [liveSpeechEmit, hlang, hchain]

/-- Witness for C2: with all providers down, Bob receives the degraded
passthrough event for Alice's `X`. -/
theorem total_failure_degrades_witness :
    ("bob", OutEvent.liveTranslation "X" "X" "Alice" "en" "es" (some "Translation failed"))
      ∈ (liveSpeech stHello "alice" "X" "en" chainFail).1 :=
  total_failure_degrades_to_passthrough_variant1 stHello "alice" "X" "en" chainFail
    { roomId := "R1", userName := "Alice", userLanguage := "en" }
    { id := "R1"
      users := [("alice", { userName := "Alice", userLanguage := "en", joinedAt := 0 }),
                ("bob", { userName := "Bob", userLanguage := "es", joinedAt := 0 })]
      createdAt := 0 }
    "bob" { userName := "Bob", userLanguage := "es", joinedAt := 0 }
    rfl rfl (by decide) (by decide) (by decide) rfl

/-! ## Claim about one outbound event per other member (C3) -/

/-- Counterexample to claim C3: in server variant 2, a same-language
member other than the sender receives zero outbound events (the loop skips
them with `continue`), not exactly one.  Bob (English) receives nothing for
Alice's English `Hi`. -/
theorem variant2_same_language_member_gets_no_event :
    (liveSpeech2 st2SameLang "alice" "Hi" false chainHola).1 = [] ∧
    (sentTo (liveSpeech2 st2SameLang "alice" "Hi" false chainHola).1 "bob").length ≠ 1 := by
  constructor
  · rfl
  · decide

/-- Claim C3 as amended: in server variant 1 the fan-out is exactly as
claimed — every member of the room other than the sender receives exactly
one outbound event per utterance (a `live-translation` or a `new-message`),
and the sender receives zero; in both variants the sender never receives an
event, but variant 2 delivers zero events to same-language members and to
members whose translation fails (see the counterexample). -/
theorem fanout_exactly_one_event_per_other_member :
    (∀ (st : ServerState) (c text src : String)
        (chain : String → String → String → Except Unit String)
        (sess : Session) (room : Room) (m : String) (info : UserInfo),
      JsMap.get c st.userSessions = some sess →
      JsMap.get sess.roomId st.rooms = some room →
      (room.users.map Prod.fst).Nodup →
      (m, info) ∈ room.users → m ≠ c →
      (sentTo (liveSpeech st c text src chain).1 m).length = 1) ∧
    (∀ (st : ServerState) (c text src : String)
        (chain : String → String → String → Except Unit String),
      sentTo (liveSpeech st c text src chain).1 c = []) ∧
    (∀ (st : ServerState2) (c text : String) (isInterim : Bool)
        (chain : String → String → String → Except Unit String),
      sentTo (liveSpeech2 st c text isInterim chain).1 c = []) := by
  refine ⟨?_, ?_, ?_⟩
  · intro st c text src chain sess room m info hsess hroom hnd hmem hne
    simp only [liveSpeech, hsess, hroom, sentTo]
    rw [filter_key_map _ (liveSpeechEmit_key sess text src chain),
      filter_others_key_eq room.users c m info hnd hmem hne]
    rfl
  · intro st c text src chain
    cases hs : JsMap.get c st.userSessions with
    | none => simp [sentTo, liveSpeech, hs]
    | some sess =>
      cases hr : JsMap.get sess.roomId st.rooms with
      | none => simp [sentTo, liveSpeech, hs, hr]
      | some room =>
        simp only [sentTo, liveSpeech, hs, hr]
        have hnil : (room.users.filter fun u => u.1 ≠ c).filter (fun e => e.1 = c) = [] := by
          refine filter_key_eq_nil_of_forall_ne _ c fun e he hec => ?_
          have hf := (List.mem_filter.mp he).2
          rw [hec] at hf
          simp at hf
        rw [filter_key_map _ (liveSpeechEmit_key sess text src chain), hnil]
        rfl
  · intro st c text isInterim chain
    unfold sentTo liveSpeech2
    cases hs : JsMap.get c st.userSessions with
    | none => rfl
    | some s =>
      refine filter_flatMap_key_eq_nil _ _ c
        (fun u e he => liveSpeech2Emit_key s c text isInterim chain u e he)
        (fun u hu h1 => ?_)
      unfold liveSpeech2Emit
      rw [if_pos h1]

/-- Witness for C3: Bob (the only other member, Spanish) receives exactly
one event for Alice's English `Hello`. -/
theorem fanout_exactly_one_witness :
    (sentTo (liveSpeech stHello "alice" "Hello" "en" chainHola).1 "bob").length = 1 :=
  fanout_exactly_one_event_per_other_member.1 stHello "alice" "Hello" "en" chainHola
    { roomId := "R1", userName := "Alice", userLanguage := "en" }
    { id := "R1"
      users := [("alice", { userName := "Alice", userLanguage := "en", joinedAt := 0 }),
                ("bob", { userName := "Bob", userLanguage := "es", joinedAt := 0 })]
      createdAt := 0 }
    "bob" { userName := "Bob", userLanguage := "es", joinedAt := 0 }
    rfl rfl (by decide) (by decide) (by decide)

/-! ## Claim about same-language passthrough (C4) -/

/-- Claim C4: for every recipient whose language equals the sender's
language, no provider-chain invocation is made for that recipient, and
every event delivered to them carries the original text verbatim.  In
server variant 1 the recipient receives exactly the `new-message` event
with the original text; in server variant 2 the recipient is skipped, so
no provider is invoked for them and (vacuously) every event delivered to
them carries the original text. -/
theorem same_language_passthrough_verbatim_no_provider :
    (∀ (st : ServerState) (c text src : String)
        (chain : String → String → String → Except Unit String)
        (sess : Session) (room : Room) (m : String) (info : UserInfo),
      JsMap.get c st.userSessions = some sess →
      JsMap.get sess.roomId st.rooms = some room →
      (room.users.map Prod.fst).Nodup →
      (m, info) ∈ room.users → m ≠ c →
      info.userLanguage = src →
      sentTo (liveSpeech st c text src chain).1 m =
        [(m, OutEvent.newMessage text sess.userName)] ∧
      sentTo (liveSpeech st c text src chain).2 m = []) ∧
    (∀ (st : ServerState2) (c text : String) (isInterim : Bool)
        (chain : String → String → String → Except Unit String)
        (sess2 : Session2) (m : String) (info : UserInfo),
      JsMap.get c st.userSessions = some sess2 →
      ((getRoomUsers st sess2.roomId).map Prod.fst).Nodup →
      (m, info) ∈ getRoomUsers st sess2.roomId → m ≠ c →
      info.userLanguage = sess2.userLanguage →
      sentTo (liveSpeech2 st c text isInterim chain).2 m = [] ∧
      ∀ e ∈ sentTo (liveSpeech2 st c text isInterim chain).1 m,
        originalTextOf2 e.2 = text) := by
  constructor
  · intro st c text src chain sess room m info hsess hroom hnd hmem hne hlang
    constructor
    · simp only [liveSpeech, hsess, hroom, sentTo]
      rw [filter_key_map _ (liveSpeechEmit_key sess text src chain),
        filter_others_key_eq room.users c m info hnd hmem hne]
      simp [liveSpeechEmit, hlang]
    · simp only [liveSpeech, hsess, hroom, sentTo]
      have hkey : ∀ u : String × UserInfo,
          ((fun u => (u.1, text, src, u.2.userLanguage)) u).1 = u.1 := fun _ => rfl
      rw [filter_key_map _ hkey]
      have hnil : ((room.users.filter fun u => u.1 ≠ c).filter
          fun u => u.2.userLanguage ≠ src).filter (fun e => e.1 = m) = [] := by
        refine filter_key_eq_nil_of_forall_ne _ m fun e he hem => ?_
        have he1 := List.mem_filter.mp he
        have he2 := List.mem_filter.mp he1.1
        have hmm : (m, e.2) ∈ room.users := by
          have : e = (m, e.2) := by
            rw [← hem]
          rw [← this]
          exact he2.1
        have hval : e.2 = info := mem_value_unique_of_nodup_keys room.users m e.2 info hnd hmm hmem
        have hdiff := he1.2
        rw [hval, hlang] at hdiff
        simp at hdiff
      rw [hnil]
      rfl
  · intro st c text isInterim chain sess2 m info hsess hnd hmem hne hlang
    have huniq : ∀ u ∈ getRoomUsers st sess2.roomId, u.1 = m →
        u.2.userLanguage = sess2.userLanguage := by
      intro u hu hum
      have hmm : (m, u.2) ∈ getRoomUsers st sess2.roomId := by
        have : u = (m, u.2) := by
          rw [← hum]
        rw [← this]
        exact hu
      have hval : u.2 = info :=
        mem_value_unique_of_nodup_keys _ m u.2 info hnd hmm hmem
      rw [hval, hlang]
    constructor
    · simp only [liveSpeech2, hsess, sentTo]
      refine filter_flatMap_key_eq_nil _ _ m
        (fun u e he => liveSpeech2Call_key sess2 c text u e he)
        (fun u hu hum => ?_)
      unfold liveSpeech2Call
      by_cases h1 : u.1 = c
      · rw [if_pos h1]
      · rw [if_neg h1, if_pos (huniq u hu hum)]
    · simp only [liveSpeech2, hsess, sentTo]
      have hnil : ((getRoomUsers st sess2.roomId).flatMap
          (liveSpeech2Emit sess2 c text isInterim chain)).filter (fun e => e.1 = m) = [] := by
        refine filter_flatMap_key_eq_nil _ _ m
          (fun u e he => liveSpeech2Emit_key sess2 c text isInterim chain u e he)
          (fun u hu hum => ?_)
        unfold liveSpeech2Emit
        by_cases h1 : u.1 = c
        · rw [if_pos h1]
        · rw [if_neg h1, if_pos (huniq u hu hum)]
      rw [hnil]
      intro e he
      simp at he

/-- Witness for C4: Carol (English, like Alice) receives exactly the
`new-message` carrying `Hi` verbatim, and no provider invocation targets
her, while Bob (Spanish) is translated for. -/
theorem same_language_passthrough_witness :
    sentTo (liveSpeech stCarol "alice" "Hi" "en" chainHola).1 "carol" =
      [("carol", OutEvent.newMessage "Hi" "Alice")] ∧
    sentTo (liveSpeech stCarol "alice" "Hi" "en" chainHola).2 "carol" = [] :=
  same_language_passthrough_verbatim_no_provider.1 stCarol "alice" "Hi" "en" chainHola
    { roomId := "R1", userName := "Alice", userLanguage := "en" }
    { id := "R1"
      users := [("alice", { userName := "Alice", userLanguage := "en", joinedAt := 0 }),
                ("bob", { userName := "Bob", userLanguage := "es", joinedAt := 0 }),
                ("carol", { userName := "Carol", userLanguage := "en", joinedAt := 1 })]
      createdAt := 0 }
    "carol" { userName := "Carol", userLanguage := "en", joinedAt := 1 }
    rfl rfl (by decide) (by decide) (by decide) rfl

/-! ## Claim about the cache-then-provider relay flow (C1) -/

/-- Counterexample to claim C1: the Relay Orchestrator performs no cache
lookup at all.  Under the claimed flow, relaying the same utterance twice
invokes the provider chain at most once for the pair (the first relay
stores the successful result, the second hits the cache and invokes no
provider).  The variant-1 `live-speech` handler instead invokes
`translateWithFreeServices` once per differing-language recipient of every
utterance: two consecutive identical utterances from Alice produce two
identical provider invocations for Bob. -/
theorem relay_invokes_provider_twice_for_repeated_utterance :
    relayRunCalls stHello [("alice", "Hello", "en"), ("alice", "Hello", "en")] chainHola =
      [("bob", "Hello", "en", "es"), ("bob", "Hello", "en", "es")] ∧
    ¬ (relayRunCalls stHello [("alice", "Hello", "en"), ("alice", "Hello", "en")]
        chainHola).length ≤ 1 := by
  constructor
  · rfl
  · decide

/-- Claim C1 as amended: the relay (variant-1 `live-speech`) consults no
cache — it invokes the provider chain for every differing-language
recipient of every utterance.  The claimed lookup-on-hit, and
translate-then-store-on-miss-and-success flow is implemented only by the
client-side `PerformanceOptimizer.translateSingle` (used on the solo-mode
path, not the room relay): on a cache hit it performs no fetch and returns
the cached text; on a miss it performs exactly one fetch, and when the
response is successful it stores the result in the cache before returning. -/
theorem relay_has_no_cache_lookup_store_is_in_translateSingle :
    (∀ (st : ServerState) (c text src : String)
        (chain : String → String → String → Except Unit String)
        (sess : Session) (room : Room) (m : String) (info : UserInfo),
      JsMap.get c st.userSessions = some sess →
      JsMap.get sess.roomId st.rooms = some room →
      (m, info) ∈ room.users → m ≠ c → info.userLanguage ≠ src →
      (m, text, src, info.userLanguage) ∈ (liveSpeech st c text src chain).2) ∧
    (∀ (po : PerformanceOptimizer) (req : TranslateRequest)
        (fetchOutcome : Except Unit ApiResult) (now : Nat),
      (∀ (e : CacheEntry) (po1 : PerformanceOptimizer),
        getCachedTranslation po req.text req.sourceLang req.targetLang now = (some e, po1) →
        translateSingle po req fetchOutcome now =
          { result := SingleResult.cachedResult e.originalText e.translatedText,
            optimizer := po1, fetches := 0 }) ∧
      (∀ po1 : PerformanceOptimizer,
        getCachedTranslation po req.text req.sourceLang req.targetLang now = (none, po1) →
        (translateSingle po req fetchOutcome now).fetches = 1) ∧
      (∀ (po1 : PerformanceOptimizer) (r : ApiResult),
        getCachedTranslation po req.text req.sourceLang req.targetLang now = (none, po1) →
        fetchOutcome = Except.ok r → r.success = true →
        JsMap.get (cacheKey req.text req.sourceLang req.targetLang)
            (translateSingle po req fetchOutcome now).optimizer.translationCache =
          some { originalText := req.text, translatedText := r.translatedText,
                 sourceLang := req.sourceLang, targetLang := req.targetLang,
                 timestamp := now, hitCount := 0, lastAccessed := none })) := by
  constructor
  · intro st c text src chain sess room m info hsess hroom hmem hne hlang
    simp only [liveSpeech, hsess, hroom]
    refine List.mem_map.mpr ⟨(m, info), ?_, rfl⟩
    exact List.mem_filter.mpr
      ⟨mem_others_filter room.users c m info hmem hne, by simp [hlang]⟩
  · intro po req fetchOutcome now
    refine ⟨?_, ?_, ?_⟩
    · intro e po1 hhit
      unfold translateSingle
      rw [hhit]
    · intro po1 hmiss
      unfold translateSingle
      rw [hmiss]
      cases fetchOutcome with
      | error e0 => rfl
      | ok r =>
        by_cases hs : r.success
        · simp [hs]
        · simp [hs]
    · intro po1 r hmiss hfetch hsucc
      unfold translateSingle
      rw [hmiss, hfetch]
      simp only [if_pos hsucc]
      rw [cacheTranslation_translationCache]
      exact JsMap.get_set_self _ _ _

/-- Witness for C1: the relay performs the provider call for Bob, and on
the client side a cache miss leads to exactly one fetch in
`translateSingle`. -/
theorem relay_no_cache_witness :
    ("bob", "Hello", "en", "es") ∈ (liveSpeech stHello "alice" "Hello" "en" chainHola).2 ∧
    (translateSingle { translationCache := [], maxCacheSize := 100 }
      { text := "Hello", sourceLang := "en", targetLang := "es" }
      (Except.ok { success := true, translatedText := "Hola" }) 3).fetches = 1 := by
  have h := relay_has_no_cache_lookup_store_is_in_translateSingle
  refine ⟨h.1 stHello "alice" "Hello" "en" chainHola
    { roomId := "R1", userName := "Alice", userLanguage := "en" }
    { id := "R1"
      users := [("alice", { userName := "Alice", userLanguage := "en", joinedAt := 0 }),
                ("bob", { userName := "Bob", userLanguage := "es", joinedAt := 0 })]
      createdAt := 0 }
    "bob" { userName := "Bob", userLanguage := "es", joinedAt := 0 }
    rfl rfl (by decide) (by decide) (by decide), ?_⟩
  exact (h.2 { translationCache := [], maxCacheSize := 100 }
    { text := "Hello", sourceLang := "en", targetLang := "es" }
    (Except.ok { success := true, translatedText := "Hola" }) 3).2.1
    { translationCache := [], maxCacheSize := 100 } rfl

/-! ## Claim about re-joining the same room (C9) -/

/-- Counterexample to claim C9: re-joining the room a connection already
occupies is not a pure update.  With Alice and Bob in `R1`, Alice re-joining
`R1` emits a `user-left` notification about Alice to Bob; and when Alice is
the only member, the room is deleted and re-created: its `createdAt` moves
from 5 to the time of the re-join. -/
theorem rejoin_same_room_emits_user_left :
    ("bob", OutEvent.userLeft "Alice" "alice") ∈
      (joinRoom stHello "alice" "R1" "Alice" "fr" 9).2 ∧
    (JsMap.get "R1" (joinRoom stSolo "alice" "R1" "Alice" "en" 9).1.rooms).map
      Room.createdAt = some 9 ∧
    (JsMap.get "R1" stSolo.rooms).map Room.createdAt = some 5 := by
  refine ⟨?_, ?_, ?_⟩
  · decide
  · decide
  · decide

/-- Claim C9 as amended: re-joining the same room first removes the
membership and then re-adds it — the handler emits a `user-left`
notification about the re-joiner to every other room member (followed by
`user-joined`), and if the connection was the room's only member the room
is deleted and re-created with a fresh `createdAt`.  The net effect on the
member entry and the session is the claimed update of displayName and
language. -/
theorem rejoin_same_room_removes_and_readds (st : ServerState) (c name lang : String)
    (now : Nat) (prev : Session) (room : Room)
    (hsess : JsMap.get c st.userSessions = some prev)
    (hroom : JsMap.get prev.roomId st.rooms = some room) :
    JsMap.get c (joinRoom st c prev.roomId name lang now).1.userSessions =
      some { roomId := prev.roomId, userName := name, userLanguage := lang } ∧
    (∃ room2 : Room,
      JsMap.get prev.roomId (joinRoom st c prev.roomId name lang now).1.rooms = some room2 ∧
      JsMap.get c room2.users =
        some { userName := name, userLanguage := lang, joinedAt := now }) ∧
    (∀ (m : String) (info2 : UserInfo), (m, info2) ∈ room.users → m ≠ c →
      (m, OutEvent.userLeft prev.userName c) ∈ (joinRoom st c prev.roomId name lang now).2) := by
  refine ⟨?_, ?_, ?_⟩
  · simp only [joinRoom, hsess, hroom]
    exact JsMap.get_set_self c _ st.userSessions
  · simp only [joinRoom, hsess, hroom]
    by_cases hrem : (JsMap.del c room.users).length = 0
    · simp only [if_pos hrem, JsMap.get_del_self, JsMap.get_set_self, Option.getD_some]
      exact ⟨_, rfl, JsMap.get_set_self c _ _⟩
    · simp only [if_neg hrem, JsMap.get_set_self, Option.getD_some]
      exact ⟨_, rfl, JsMap.get_set_self c _ _⟩
  · intro m info2 hmem2 hne2
    have hin : (m, info2) ∈ JsMap.del c room.users := JsMap.mem_del_of_mem hmem2 hne2
    have hinev : (m, OutEvent.userLeft prev.userName c) ∈
        (JsMap.del c room.users).map
          (fun u => (u.1, OutEvent.userLeft prev.userName c)) := by
      have := List.mem_map_of_mem
        (fun u : String × UserInfo => (u.1, OutEvent.userLeft prev.userName c)) hin
      simpa using this
    simp only [joinRoom, hsess, hroom]
    by_cases hrem : (JsMap.del c room.users).length = 0
    · rw [List.length_eq_zero] at hrem
      rw [hrem] at hinev
      simp at hinev
    · simp only [if_neg hrem]
      exact List.mem_append_left _ (List.mem_append_left _ hinev)

/-- Witness for C9: applying the re-join characterisation to Alice
re-joining `R1` with a new name and language. -/
theorem rejoin_same_room_witness :
    JsMap.get "alice" (joinRoom stHello "alice" "R1" "Alice2" "fr" 9).1.userSessions =
      some { roomId := "R1", userName := "Alice2", userLanguage := "fr" } ∧
    ("bob", OutEvent.userLeft "Alice" "alice") ∈
      (joinRoom stHello "alice" "R1" "Alice2" "fr" 9).2 := by
  have h := rejoin_same_room_removes_and_readds stHello "alice" "Alice2" "fr" 9
    { roomId := "R1", userName := "Alice", userLanguage := "en" }
    { id := "R1"
      users := [("alice", { userName := "Alice", userLanguage := "en", joinedAt := 0 }),
                ("bob", { userName := "Bob", userLanguage := "es", joinedAt := 0 })]
      createdAt := 0 }
    rfl rfl
  exact ⟨h.1, h.2.2 "bob" { userName := "Bob", userLanguage := "es", joinedAt := 0 }
    (by decide) (by decide)⟩

end LiveTranslation

